import Mathlib

/-!
Shallow embedding of `etl.py`, a single-pass Spark ETL job.

Dataframes are modelled as Lean lists of records; the Spark operations used by
the source (`select`, `where`, `dropDuplicates`, `orderBy`, `join`,
`withColumn`, `monotonically_increasing_id`) are modelled as list functions.
`datetime.fromtimestamp(int(x) / 1000.0)` produces a naive local datetime; we
represent that datetime by its count of milliseconds since the local epoch,
parameterised by the process's UTC offset in seconds (`offset`), so
`localTsMs ts offset = ts + offset * 1000`.  Spark's calendar functions
(`year`, `month`, `dayofmonth`, `hour`, `weekofyear`, `dayofweek`) are embedded
with the standard proleptic-Gregorian civil-from-days algorithm, ISO week
numbering for `weekofyear`, and Spark's Sunday=1 convention for `dayofweek`.
-/

namespace Etl

/-- `get_timestamp` (etl.py line 128-129): the naive local datetime obtained from
`datetime.fromtimestamp(int(ts) / 1000.0)`, represented as milliseconds since
the local epoch, for a process whose local UTC offset is `offset` seconds. -/
def localTsMs (ts offset : Int) : Int := ts + offset * 1000

/-- Whole days since 1970-01-01 of a local datetime given in milliseconds. -/
def epochDaysOfMs (ms : Int) : Int := ms / 86400000

/-- Spark `hour` applied to the datetime. -/
def hourOfMs (ms : Int) : Nat := ((ms % 86400000) / 3600000).toNat

/-- Proleptic-Gregorian (year, month, day) of a count of days since 1970-01-01
(standard civil-from-days algorithm). -/
def civilFromDays (z0 : Int) : Int × Nat × Nat :=
  let z := z0 + 719468
  let era : Int := (if 0 ≤ z then z else z - 146096) / 146097
  let doe : Nat := (z - era * 146097).toNat
  let yoe : Nat := (doe - doe / 1460 + doe / 36524 - doe / 146096) / 365
  let y : Int := (yoe : Int) + era * 400
  let doy : Nat := doe - (365 * yoe + yoe / 4 - yoe / 100)
  let mp : Nat := (5 * doy + 2) / 153
  let d : Nat := doy - (153 * mp + 2) / 5 + 1
  let m : Nat := if mp < 10 then mp + 3 else mp - 9
  (if m ≤ 2 then y + 1 else y, m, d)

/-- Days since 1970-01-01 of a proleptic-Gregorian date (inverse of
`civilFromDays`). -/
def daysFromCivil (y0 : Int) (m d : Nat) : Int :=
  let y : Int := if m ≤ 2 then y0 - 1 else y0
  let era : Int := (if 0 ≤ y then y else y - 399) / 400
  let yoe : Nat := (y - era * 400).toNat
  let doy : Nat := (153 * (if 2 < m then m - 3 else m + 9) + 2) / 5 + d - 1
  let doe : Nat := yoe * 365 + yoe / 4 - yoe / 100 + doy
  era * 146097 + (doe : Int) - 719468

/-- Spark `year` applied to the datetime. -/
def yearOfMs (ms : Int) : Int := (civilFromDays (epochDaysOfMs ms)).1

/-- Spark `month` applied to the datetime. -/
def monthOfMs (ms : Int) : Nat := (civilFromDays (epochDaysOfMs ms)).2.1

/-- Spark `dayofmonth` applied to the datetime. -/
def dayOfMs (ms : Int) : Nat := (civilFromDays (epochDaysOfMs ms)).2.2

/-- Spark `dayofweek` applied to the datetime: 1 = Sunday, …, 7 = Saturday
(1970-01-01, day 0, was a Thursday). -/
def dayofweekOfMs (ms : Int) : Nat := ((epochDaysOfMs ms + 4) % 7).toNat + 1

/-- ISO weekday of a count of epoch days: 1 = Monday, …, 7 = Sunday. -/
def isoWeekdayOfDays (z : Int) : Nat := ((z + 3) % 7).toNat + 1

/-- Gregorian leap-year test. -/
def isLeapYear (y : Int) : Bool := (y % 4 == 0 && y % 100 != 0) || (y % 400 == 0)

/-- Number of ISO weeks in year `y` (52 or 53). -/
def isoWeeksInYear (y : Int) : Nat :=
  let jan1wd := isoWeekdayOfDays (daysFromCivil y 1 1)
  if jan1wd == 4 || (isLeapYear y && jan1wd == 3) then 53 else 52

/-- Spark `weekofyear` applied to the datetime: the ISO-8601 week number. -/
def weekofyearOfMs (ms : Int) : Nat :=
  let z := epochDaysOfMs ms
  let y := (civilFromDays z).1
  let wd := isoWeekdayOfDays z
  let ord : Nat := (z - daysFromCivil y 1 1).toNat + 1
  let w : Int := ((ord : Int) - (wd : Int) + 10) / 7
  if w < 1 then isoWeeksInYear (y - 1)
  else if (isoWeeksInYear y : Int) < w then 1
  else w.toNat

/-- An input song record (one JSON object of the song dataset). Float-valued
payload fields that the pipeline only carries through unchanged
(`duration`, latitude, longitude) are modelled as rationals. -/
structure SongRecord where
  song_id : String
  title : String
  artist_id : String
  artist_name : String
  artist_location : String
  artist_latitude : Rat
  artist_longitude : Rat
  year : Int
  duration : Rat
deriving DecidableEq, Repr

/-- A row of the Songs output table. -/
structure SongsRow where
  song_id : String
  title : String
  artist_id : String
  year : Int
  duration : Rat
deriving DecidableEq, Repr

/-- The projection `df.select(['song_id', 'title', 'artist_id', 'year',
'duration'])` applied to one record (etl.py lines 70-71). -/
def songsProj (r : SongRecord) : SongsRow :=
  ⟨r.song_id, r.title, r.artist_id, r.year, r.duration⟩

/-- `songs_table` (etl.py lines 70-71): a pure projection, no deduplication. -/
def songs_table (df : List SongRecord) : List SongsRow := df.map songsProj

/-- A row of the Artists output table. -/
structure ArtistsRow where
  artist_id : String
  artist_name : String
  artist_location : String
  artist_latitude : Rat
  artist_longitude : Rat
deriving DecidableEq, Repr

/-- The projection of etl.py lines 78-79. -/
def artistsProj (r : SongRecord) : ArtistsRow :=
  ⟨r.artist_id, r.artist_name, r.artist_location, r.artist_latitude, r.artist_longitude⟩

/-- Spark's `dropDuplicates([cols])`: keep one row per distinct key (the engine
keeps an arbitrary row per key; we determinise to the first occurrence, which
the spec explicitly allows). -/
def dropDuplicatesBy {α κ : Type} [DecidableEq κ] (key : α → κ) : List α → List α
  | [] => []
  | x :: xs => x :: (dropDuplicatesBy key xs).filter fun y => key y != key x

/-- `artists_table` (etl.py lines 78-80): projection then
`dropDuplicates(['artist_id'])`. -/
def artists_table (df : List SongRecord) : List ArtistsRow :=
  dropDuplicatesBy (fun r => r.artist_id) (df.map artistsProj)

/-- An input log record (one JSON object of the log dataset). -/
structure LogRecord where
  userId : String
  firstName : String
  lastName : String
  gender : String
  level : String
  ts : Int
  page : String
  song : String
  sessionId : Int
  location : String
  userAgent : String
deriving DecidableEq, Repr

/-- `df.where(df.page == 'NextSong')` (etl.py line 116). -/
def filterNextSong (df : List LogRecord) : List LogRecord :=
  df.filter fun r => r.page == "NextSong"

/-- A row of the Users output table. -/
structure UsersRow where
  userId : String
  firstName : String
  lastName : String
  gender : String
  level : String
deriving DecidableEq, Repr

/-- The projection of etl.py lines 119-120. -/
def usersProj (r : LogRecord) : UsersRow :=
  ⟨r.userId, r.firstName, r.lastName, r.gender, r.level⟩

/-- The comparison used by `orderBy('userId')`. -/
def usersLe (a b : UsersRow) : Prop := a.userId ≤ b.userId

instance : DecidableRel usersLe := fun a b =>
  inferInstanceAs (Decidable (a.userId ≤ b.userId))

instance : IsTotal UsersRow usersLe := ⟨fun a b => le_total a.userId b.userId⟩

instance : IsTrans UsersRow usersLe := ⟨fun _ _ _ h h' => le_trans h h'⟩

/-- `users_table` (etl.py lines 119-121): filter (already applied), projection,
`dropDuplicates(['userId'])`, then `orderBy('userId')`. -/
def users_table (df : List LogRecord) : List UsersRow :=
  List.insertionSort usersLe
    (dropDuplicatesBy (fun r => r.userId) ((filterNextSong df).map usersProj))

/-- The filtered log row after the `withColumn` chain of etl.py lines 131-142:
the original columns plus `timestamp`, `datetime` (both `get_timestamp(df.ts)`)
and the six calendar parts computed from the `timestamp` column. -/
structure LogWithTime extends LogRecord where
  timestamp : Int
  datetime : Int
  hour : Nat
  day : Nat
  week : Nat
  month : Nat
  year : Int
  weekday : Nat
deriving DecidableEq, Repr

/-- The `withColumn` chain (etl.py lines 131-142) applied to one filtered row,
in a process with local UTC offset `offset` seconds. -/
def withTimeColumns (offset : Int) (r : LogRecord) : LogWithTime :=
  { r with
    timestamp := localTsMs r.ts offset
    datetime := localTsMs r.ts offset
    hour := hourOfMs (localTsMs r.ts offset)
    day := dayOfMs (localTsMs r.ts offset)
    week := weekofyearOfMs (localTsMs r.ts offset)
    month := monthOfMs (localTsMs r.ts offset)
    year := yearOfMs (localTsMs r.ts offset)
    weekday := dayofweekOfMs (localTsMs r.ts offset) }

/-- A row of the Time output table. -/
structure TimeRow where
  datetime : Int
  hour : Nat
  day : Nat
  week : Nat
  month : Nat
  year : Int
  weekday : Nat
deriving DecidableEq, Repr

/-- The `select` of etl.py lines 144-151. -/
def timeProj (r : LogWithTime) : TimeRow :=
  ⟨r.datetime, r.hour, r.day, r.week, r.month, r.year, r.weekday⟩

/-- `time_table` (etl.py lines 144-151): projection of the enriched filtered
rows, then full-row `dropDuplicates()`. -/
def time_table (offset : Int) (df : List LogRecord) : List TimeRow :=
  dropDuplicatesBy (fun r => r)
    (((filterNextSong df).map (withTimeColumns offset)).map timeProj)

/-- `df.join(song_df, song_df.title == df.song)` (etl.py line 162): the inner
equality join, as the list of all matching (log row, song record) pairs. -/
def joinOnTitle (df : List LogWithTime) (songs : List SongRecord) :
    List (LogWithTime × SongRecord) :=
  df.flatMap fun l => (songs.filter fun s => s.title == l.song).map fun s => (l, s)

/-- A row of the Songplays output table (before `songplay_id` is attached). -/
structure SongplayRow where
  ts : Int
  userId : String
  level : String
  song_id : String
  artist_id : String
  sessionId : Int
  location : String
  userAgent : String
  year : Int
  month : Nat
deriving DecidableEq, Repr

/-- The `select` of etl.py lines 164-174: log columns, the matched song's ids,
and `year`/`month` recomputed from the log row's `datetime` column. -/
def songplayProj (p : LogWithTime × SongRecord) : SongplayRow :=
  ⟨p.1.ts, p.1.userId, p.1.level, p.2.song_id, p.2.artist_id, p.1.sessionId,
   p.1.location, p.1.userAgent, yearOfMs p.1.datetime, monthOfMs p.1.datetime⟩

/-- `songplays_table` before id assignment (etl.py lines 162-174). -/
def songplays_table (offset : Int) (logs : List LogRecord)
    (songs : List SongRecord) : List SongplayRow :=
  (joinOnTitle ((filterNextSong logs).map (withTimeColumns offset)) songs).map
    songplayProj

/-- The value of `monotonically_increasing_id()` for row `i` of partition `p`:
the partition index in the upper bits, the per-partition row number in the
lower 33 bits. -/
def monotonicallyIncreasingId (p i : Nat) : Nat := p * 2 ^ 33 + i

/-- Ids of `.withColumn('songplay_id', monotonically_increasing_id())` for the
partitions starting at partition index `p`, each row paired with its id. -/
def assignIdsFrom {α : Type} (p : Nat) : List (List α) → List (α × Nat)
  | [] => []
  | part :: rest =>
      (part.enum.map fun ia => (ia.2, monotonicallyIncreasingId p ia.1)) ++
        assignIdsFrom (p + 1) rest

/-- etl.py line 175: attach a `songplay_id` to every row, given the engine's
physical partitioning of the songplays rows. -/
def assignSongplayIds (parts : List (List SongplayRow)) : List (SongplayRow × Nat) :=
  assignIdsFrom 0 parts

/-- A concrete song record, used to instantiate theorems with hypotheses. -/
def sampleSong : SongRecord :=
  ⟨"SOGOSOV12AF72A285E", "Dianchi", "ARGSJW91187B9B1D6B", "JennyAnyKind",
   "North Carolina", (35 : Rat), (-79 : Rat), 2000, (218 : Rat)⟩

/-- A second song record with the same `song_id` as `sampleSong` but a
different title: a duplicated-id input. -/
def sampleSongDup : SongRecord :=
  ⟨"SOGOSOV12AF72A285E", "Dianchi (live)", "ARGSJW91187B9B1D6B", "JennyAnyKind",
   "North Carolina", (35 : Rat), (-79 : Rat), 2004, (200 : Rat)⟩

/-- A concrete log record whose `page` is `"NextSong"` and whose `song` equals
`sampleSong.title`. -/
def sampleLog : LogRecord :=
  ⟨"39", "Walter", "Frye", "M", "free", 1541121934796, "NextSong", "Dianchi",
   38, "San Francisco-Oakland-Hayward, CA", "Mozilla"⟩

/-- A concrete songplays row, used to instantiate theorems with hypotheses. -/
def sampleSongplay : SongplayRow :=
  songplayProj (withTimeColumns 0 sampleLog, sampleSong)

/-- The observable events of one run of etl.py, in program order. -/
inductive Event where
  | readConfig (path : String)
  | setEnv (key : String)
  | createSession
  | readData (path : String)
  | writeData (path : String)
deriving DecidableEq, Repr

/-- Whether an event touches the data store (any read or write of data). -/
def Event.isDataAccess : Event → Bool
  | .readData _ => true
  | .writeData _ => true
  | _ => false

/-- Events of `process_song_data` (etl.py lines 43-84), in source order. -/
def processSongDataTrace : List Event :=
  [.readData "song_data", .writeData "songs", .writeData "artists"]

/-- Events of `process_log_data` (etl.py lines 87-180), in source order. -/
def processLogDataTrace : List Event :=
  [.readData "log_data", .writeData "users", .writeData "time",
   .readData "song_data", .writeData "songplays"]

/-- Events of one run of the module (etl.py lines 11-15 at import, then
`main`, lines 183-193), in program order. -/
def etlTrace : List Event :=
  [.readConfig "dl.cfg", .setEnv "AWS_ACCESS_KEY_ID",
   .setEnv "AWS_SECRET_ACCESS_KEY", .createSession] ++
    processSongDataTrace ++ processLogDataTrace

/-! ### Lemmas about `dropDuplicatesBy` -/

theorem mem_of_mem_dropDuplicatesBy {α κ : Type} [DecidableEq κ] {key : α → κ}
    {l : List α} {a : α} (h : a ∈ dropDuplicatesBy key l) : a ∈ l := by
  induction l with
  | nil => simp [dropDuplicatesBy] at h
  | cons x xs ih =>
    rw [dropDuplicatesBy] at h
    rcases List.mem_cons.1 h with h | h
    · exact h ▸ List.mem_cons_self x xs
    · exact List.mem_cons_of_mem x (ih (List.mem_of_mem_filter h))

theorem mem_keys_dropDuplicatesBy {α κ : Type} [DecidableEq κ] {key : α → κ}
    {l : List α} {k : κ} :
    k ∈ (dropDuplicatesBy key l).map key ↔ k ∈ l.map key := by
  induction l with
  | nil => simp [dropDuplicatesBy]
  | cons x xs ih =>
    rw [dropDuplicatesBy]
    simp only [List.map_cons, List.mem_cons, ← ih]
    constructor
    · rintro (h | h)
      · exact Or.inl h
      · rcases List.mem_map.1 h with ⟨a, ha, rfl⟩
        exact Or.inr (List.mem_map_of_mem key (List.mem_of_mem_filter ha))
    · rintro (h | h)
      · exact Or.inl h
      · rcases List.mem_map.1 h with ⟨a, ha, rfl⟩
        by_cases hx : key a = key x
        · exact Or.inl hx
        · refine Or.inr (List.mem_map_of_mem key (List.mem_filter.2 ⟨ha, ?_⟩))
          simpa using hx

theorem nodup_keys_dropDuplicatesBy {α κ : Type} [DecidableEq κ] (key : α → κ)
    (l : List α) : ((dropDuplicatesBy key l).map key).Nodup := by
  induction l with
  | nil => simp [dropDuplicatesBy]
  | cons x xs ih =>
    rw [dropDuplicatesBy]
    simp only [List.map_cons, List.nodup_cons]
    constructor
    · intro hmem
      rcases List.mem_map.1 hmem with ⟨a, ha, hk⟩
      exact absurd hk (by simpa using (List.mem_filter.1 ha).2)
    · exact List.Nodup.sublist (List.Sublist.map key (List.filter_sublist _))
        ih

theorem countP_key_dropDuplicatesBy {α κ : Type} [DecidableEq κ] (key : α → κ)
    (l : List α) (k : κ) :
    (dropDuplicatesBy key l).countP (fun a => key a == k) =
      if k ∈ l.map key then 1 else 0 := by
  have hmap : ∀ m : List α, m.countP (fun a => key a == k) = (m.map key).count k := by
    intro m
    simp [List.count, List.countP_map, Function.comp_def]
  rw [hmap]
  by_cases h : k ∈ l.map key
  · rw [if_pos h]
    exact List.count_eq_one_of_mem (nodup_keys_dropDuplicatesBy key l)
      (mem_keys_dropDuplicatesBy.2 h)
  · rw [if_neg h]
    exact List.count_eq_zero_of_not_mem (fun hc => h (mem_keys_dropDuplicatesBy.1 hc))

theorem mem_filterNextSong {logs : List LogRecord} {r : LogRecord} :
    r ∈ filterNextSong logs ↔ r ∈ logs ∧ r.page = "NextSong" := by
  simp [filterNextSong]

theorem mem_joinOnTitle {df : List LogWithTime} {songs : List SongRecord}
    {l : LogWithTime} {s : SongRecord} :
    (l, s) ∈ joinOnTitle df songs ↔ l ∈ df ∧ s ∈ songs ∧ s.title = l.song := by
  constructor
  · intro h
    rcases List.mem_flatMap.1 h with ⟨l', hl', hp⟩
    rcases List.mem_map.1 hp with ⟨s', hs', heq⟩
    injection heq with h1 h2
    subst h1; subst h2
    rcases List.mem_filter.1 hs' with ⟨hss, hbeq⟩
    exact ⟨hl', hss, by simpa using hbeq⟩
  · rintro ⟨h1, h2, h3⟩
    exact List.mem_flatMap.2
      ⟨l, h1, List.mem_map.2 ⟨s, List.mem_filter.2 ⟨h2, by simpa using h3⟩, rfl⟩⟩

/-! ### Claim theorems -/

/-- C6: for every input song dataset, the Artists output table contains exactly
one row per distinct `artist_id` present in the input (a single, deduplicated
choice among duplicates), and every row is the projection of some input
record. -/
theorem C6_artists_one_row_per_artist_id (df : List SongRecord) :
    (∀ aid : String,
      (artists_table df).countP (fun r => r.artist_id == aid) =
        if aid ∈ df.map (fun r => r.artist_id) then 1 else 0) ∧
    ∀ row ∈ artists_table df, ∃ r ∈ df, row = artistsProj r := by
  constructor
  · intro aid
    have h := countP_key_dropDuplicatesBy (fun r : ArtistsRow => r.artist_id)
      (df.map artistsProj) aid
    simpa [artists_table, List.map_map, Function.comp_def, artistsProj] using h
  · intro row hrow
    rcases List.mem_map.1 (mem_of_mem_dropDuplicatesBy hrow) with ⟨r, hr, rfl⟩
    exact ⟨r, hr, rfl⟩

/-- Witness for C6 at a concrete one-record input. -/
theorem C6_witness :
    artistsProj sampleSong ∈ artists_table [sampleSong] ∧
    ∃ r ∈ [sampleSong], artistsProj sampleSong = artistsProj r :=
  ⟨by decide, (C6_artists_one_row_per_artist_id [sampleSong]).2
    (artistsProj sampleSong) (by decide)⟩

/-- C3: for every input log dataset, the Users output table contains exactly
one row per distinct `userId` among the rows with `page == "NextSong"`, and is
sorted ascending by `userId`. -/
theorem C3_users_unique_and_sorted (logs : List LogRecord) :
    (∀ u : String,
      (users_table logs).countP (fun r => r.userId == u) =
        if u ∈ (filterNextSong logs).map (fun r => r.userId) then 1 else 0) ∧
    List.Sorted usersLe (users_table logs) := by
  constructor
  · intro u
    have hperm := List.perm_insertionSort usersLe
      (dropDuplicatesBy (fun r => r.userId) ((filterNextSong logs).map usersProj))
    rw [users_table, hperm.countP_eq]
    have h := countP_key_dropDuplicatesBy (fun r : UsersRow => r.userId)
      ((filterNextSong logs).map usersProj) u
    simpa [List.map_map, Function.comp_def, usersProj] using h
  · exact List.sorted_insertionSort usersLe _

/-- C5: no row of the Users, Time, or Songplays output tables derives from a
log record whose `page` is not `"NextSong"`: every output row is produced from
some input log record with `page = "NextSong"`. -/
theorem C5_only_nextsong_rows (offset : Int) (logs : List LogRecord)
    (songs : List SongRecord) :
    (∀ u ∈ users_table logs,
       ∃ r ∈ logs, r.page = "NextSong" ∧ u = usersProj r) ∧
    (∀ t ∈ time_table offset logs,
       ∃ r ∈ logs, r.page = "NextSong" ∧ t = timeProj (withTimeColumns offset r)) ∧
    (∀ sp ∈ songplays_table offset logs songs,
       ∃ r ∈ logs, r.page = "NextSong" ∧
         ∃ s ∈ songs, sp = songplayProj (withTimeColumns offset r, s)) := by
  refine ⟨?_, ?_, ?_⟩
  · intro u hu
    have hdd : u ∈ dropDuplicatesBy (fun r => r.userId)
        ((filterNextSong logs).map usersProj) :=
      (List.perm_insertionSort usersLe _).mem_iff.1 hu
    rcases List.mem_map.1 (mem_of_mem_dropDuplicatesBy hdd) with ⟨r, hrf, rfl⟩
    rcases mem_filterNextSong.1 hrf with ⟨hr, hpage⟩
    exact ⟨r, hr, hpage, rfl⟩
  · intro t ht
    rcases List.mem_map.1 (mem_of_mem_dropDuplicatesBy ht) with ⟨e, he, rfl⟩
    rcases List.mem_map.1 he with ⟨r, hrf, rfl⟩
    rcases mem_filterNextSong.1 hrf with ⟨hr, hpage⟩
    exact ⟨r, hr, hpage, rfl⟩
  · intro sp hsp
    rcases List.mem_map.1 hsp with ⟨⟨l, s⟩, hp, rfl⟩
    rcases mem_joinOnTitle.1 hp with ⟨hl, hs, _⟩
    rcases List.mem_map.1 hl with ⟨r, hrf, rfl⟩
    rcases mem_filterNextSong.1 hrf with ⟨hr, hpage⟩
    exact ⟨r, hr, hpage, s, hs, rfl⟩

/-- Witness for C5 at a concrete input with one matching log row and song. -/
theorem C5_witness :
    usersProj sampleLog ∈ users_table [sampleLog] ∧
    (∃ r ∈ [sampleLog], r.page = "NextSong" ∧ usersProj sampleLog = usersProj r) ∧
    timeProj (withTimeColumns 0 sampleLog) ∈ time_table 0 [sampleLog] ∧
    (∃ r ∈ [sampleLog], r.page = "NextSong" ∧
      timeProj (withTimeColumns 0 sampleLog) = timeProj (withTimeColumns 0 r)) ∧
    songplayProj (withTimeColumns 0 sampleLog, sampleSong) ∈
      songplays_table 0 [sampleLog] [sampleSong] ∧
    (∃ r ∈ [sampleLog], r.page = "NextSong" ∧
      ∃ s ∈ [sampleSong],
        songplayProj (withTimeColumns 0 sampleLog, sampleSong) =
          songplayProj (withTimeColumns 0 r, s)) :=
  ⟨by decide,
   (C5_only_nextsong_rows 0 [sampleLog] [sampleSong]).1 _ (by decide),
   by decide,
   (C5_only_nextsong_rows 0 [sampleLog] [sampleSong]).2.1 _ (by decide),
   by decide,
   (C5_only_nextsong_rows 0 [sampleLog] [sampleSong]).2.2 _ (by decide)⟩

theorem nodup_dropDuplicatesFull {α : Type} [DecidableEq α] (l : List α) :
    (dropDuplicatesBy (fun r => r) l).Nodup := by
  have h := nodup_keys_dropDuplicatesBy (fun r : α => r) l
  simpa using h

theorem length_le_one_of_all_eq {α : Type} {l : List α}
    (hnd : l.Nodup) (h : ∀ a ∈ l, ∀ b ∈ l, a = b) : l.length ≤ 1 := by
  match l with
  | [] => simp
  | [a] => simp
  | a :: b :: t =>
    exfalso
    have hab := h a (by simp) b (by simp)
    simp [hab] at hnd

/-- Two time rows computed (in the same run) from timestamps with the same
local datetime are entirely equal: every other field of a time row is a
function of the shared `datetime` value. -/
theorem timeProj_eq_of_datetime_eq {offset : Int} {r1 r2 : LogRecord}
    (h : (timeProj (withTimeColumns offset r1)).datetime =
      (timeProj (withTimeColumns offset r2)).datetime) :
    timeProj (withTimeColumns offset r1) = timeProj (withTimeColumns offset r2) := by
  simp only [timeProj, withTimeColumns] at h ⊢
  simp [h]

/-- C7: the `datetime` value is unique within the Time output table: two rows
with equal `datetime` are entirely equal, so the full-row deduplication leaves
at most one row per distinct `datetime`. -/
theorem C7_time_datetime_unique (offset : Int) (logs : List LogRecord) :
    (∀ t1 ∈ time_table offset logs, ∀ t2 ∈ time_table offset logs,
       t1.datetime = t2.datetime → t1 = t2) ∧
    ∀ d : Int, (time_table offset logs).countP (fun t => t.datetime == d) ≤ 1 := by
  have hrows : ∀ t ∈ time_table offset logs,
      ∃ r : LogRecord, t = timeProj (withTimeColumns offset r) := by
    intro t ht
    rcases List.mem_map.1 (mem_of_mem_dropDuplicatesBy ht) with ⟨e, he, rfl⟩
    rcases List.mem_map.1 he with ⟨r, _, rfl⟩
    exact ⟨r, rfl⟩
  have hkey : ∀ t1 ∈ time_table offset logs, ∀ t2 ∈ time_table offset logs,
      t1.datetime = t2.datetime → t1 = t2 := by
    intro t1 h1 t2 h2 hd
    rcases hrows t1 h1 with ⟨r1, rfl⟩
    rcases hrows t2 h2 with ⟨r2, rfl⟩
    exact timeProj_eq_of_datetime_eq hd
  refine ⟨hkey, fun d => ?_⟩
  rw [List.countP_eq_length_filter]
  refine length_le_one_of_all_eq
    (List.Nodup.sublist (List.filter_sublist _) (nodup_dropDuplicatesFull _))
    (fun a ha b hb => ?_)
  rcases List.mem_filter.1 ha with ⟨ha', had⟩
  rcases List.mem_filter.1 hb with ⟨hb', hbd⟩
  exact hkey a ha' b hb' (by simp at had hbd; rw [had, hbd])

/-- Witness for C7 at a concrete one-row input. -/
theorem C7_witness :
    timeProj (withTimeColumns 0 sampleLog) ∈ time_table 0 [sampleLog] ∧
    timeProj (withTimeColumns 0 sampleLog) = timeProj (withTimeColumns 0 sampleLog) :=
  ⟨by decide,
   (C7_time_datetime_unique 0 [sampleLog]).1 _ (by decide) _ (by decide) rfl⟩

/-- C10: every Time-table row's six derived fields are exactly the calendar
decomposition of that row's own `datetime` value (the `timestamp` column used
for decomposition and the stored `datetime` column are the same
`get_timestamp(ts)` value). -/
theorem C10_time_fields_are_decomposition_of_datetime (offset : Int)
    (logs : List LogRecord) :
    ∀ t ∈ time_table offset logs,
      t.hour = hourOfMs t.datetime ∧ t.day = dayOfMs t.datetime ∧
      t.week = weekofyearOfMs t.datetime ∧ t.month = monthOfMs t.datetime ∧
      t.year = yearOfMs t.datetime ∧ t.weekday = dayofweekOfMs t.datetime := by
  intro t ht
  rcases List.mem_map.1 (mem_of_mem_dropDuplicatesBy ht) with ⟨e, he, rfl⟩
  rcases List.mem_map.1 he with ⟨r, _, rfl⟩
  simp [timeProj, withTimeColumns]

/-- Witness for C10 at a concrete one-row input. -/
theorem C10_witness :
    timeProj (withTimeColumns 0 sampleLog) ∈ time_table 0 [sampleLog] ∧
    ((timeProj (withTimeColumns 0 sampleLog)).hour =
        hourOfMs (timeProj (withTimeColumns 0 sampleLog)).datetime ∧
      (timeProj (withTimeColumns 0 sampleLog)).day =
        dayOfMs (timeProj (withTimeColumns 0 sampleLog)).datetime ∧
      (timeProj (withTimeColumns 0 sampleLog)).week =
        weekofyearOfMs (timeProj (withTimeColumns 0 sampleLog)).datetime ∧
      (timeProj (withTimeColumns 0 sampleLog)).month =
        monthOfMs (timeProj (withTimeColumns 0 sampleLog)).datetime ∧
      (timeProj (withTimeColumns 0 sampleLog)).year =
        yearOfMs (timeProj (withTimeColumns 0 sampleLog)).datetime ∧
      (timeProj (withTimeColumns 0 sampleLog)).weekday =
        dayofweekOfMs (timeProj (withTimeColumns 0 sampleLog)).datetime) :=
  ⟨by decide,
   C10_time_fields_are_decomposition_of_datetime 0 [sampleLog] _ (by decide)⟩

/-- C9: in every run, the credentials file is read exactly once, as the very
first event, and both environment injections precede every data read or
write. -/
theorem C9_credentials_read_once_before_data_access :
    etlTrace.count (Event.readConfig "dl.cfg") = 1 ∧
    etlTrace.head? = some (Event.readConfig "dl.cfg") ∧
    ∀ i : Fin etlTrace.length,
      (etlTrace.get i).isDataAccess = true →
        ∃ j k : Fin etlTrace.length, j.val < i.val ∧ k.val < i.val ∧
          etlTrace.get j = Event.setEnv "AWS_ACCESS_KEY_ID" ∧
          etlTrace.get k = Event.setEnv "AWS_SECRET_ACCESS_KEY" := by
  refine ⟨by decide, by decide, ?_⟩
  decide

/-- Witness for C9 at the first data-access event of the trace. -/
theorem C9_witness :
    ∃ j k : Fin etlTrace.length, j.val < 4 ∧ k.val < 4 ∧
      etlTrace.get j = Event.setEnv "AWS_ACCESS_KEY_ID" ∧
      etlTrace.get k = Event.setEnv "AWS_SECRET_ACCESS_KEY" :=
  C9_credentials_read_once_before_data_access.2.2 ⟨4, by decide⟩ (by decide)

theorem le_of_mem_assignIdsFrom {α : Type} {p : Nat} {parts : List (List α)}
    {x : Nat} (hx : x ∈ (assignIdsFrom p parts).map Prod.snd) :
    p * 2 ^ 33 ≤ x := by
  induction parts generalizing p with
  | nil => simp [assignIdsFrom] at hx
  | cons part rest ih =>
    rw [assignIdsFrom] at hx
    rw [List.map_append, List.mem_append] at hx
    rcases hx with hx | hx
    · rw [List.map_map] at hx
      rcases List.mem_map.1 hx with ⟨ia, _, rfl⟩
      exact Nat.le_add_right _ _
    · calc p * 2 ^ 33 ≤ (p + 1) * 2 ^ 33 :=
            Nat.mul_le_mul_right _ (Nat.le_succ p)
        _ ≤ x := ih hx

theorem pairwise_lt_assignIdsFrom {α : Type} (p : Nat) (parts : List (List α))
    (h : ∀ part ∈ parts, part.length ≤ 2 ^ 33) :
    List.Pairwise (· < ·) ((assignIdsFrom p parts).map Prod.snd) := by
  induction parts generalizing p with
  | nil => simp [assignIdsFrom]
  | cons part rest ih =>
    rw [assignIdsFrom, List.map_append, List.pairwise_append]
    refine ⟨?_, ih (p + 1) fun q hq => h q (List.mem_cons_of_mem _ hq), ?_⟩
    · rw [List.map_map]
      have hrange := List.pairwise_lt_range part.length
      rw [← List.enum_map_fst, List.pairwise_map] at hrange
      rw [List.pairwise_map]
      exact hrange.imp fun hab => Nat.add_lt_add_left hab _
    · intro a ha b hb
      rw [List.map_map] at ha
      rcases List.mem_map.1 ha with ⟨ia, hia, rfl⟩
      have hi : ia.1 < part.length := (List.mem_enum hia).1
      have hlt : monotonicallyIncreasingId p ia.1 < (p + 1) * 2 ^ 33 := by
        have : ia.1 < 2 ^ 33 := lt_of_lt_of_le hi (h part (List.mem_cons_self _ _))
        calc p * 2 ^ 33 + ia.1 < p * 2 ^ 33 + 2 ^ 33 := Nat.add_lt_add_left this _
          _ = (p + 1) * 2 ^ 33 := by ring
      exact lt_of_lt_of_le hlt (le_of_mem_assignIdsFrom hb)

theorem map_fst_assignIdsFrom {α : Type} (p : Nat) (parts : List (List α)) :
    (assignIdsFrom p parts).map Prod.fst = parts.flatten := by
  induction parts generalizing p with
  | nil => simp [assignIdsFrom]
  | cons part rest ih =>
    rw [assignIdsFrom, List.map_append, List.map_map, ih, List.flatten_cons]
    congr 1
    have : (Prod.fst ∘ fun ia : Nat × α => (ia.2, monotonicallyIncreasingId p ia.1)) =
        Prod.snd := by
      funext ia; rfl
    rw [this, List.enum_map_snd]

/-- C8: provided every physical partition holds at most `2^33` rows, the
synthetic `songplay_id`s assigned to the Songplays rows are pairwise distinct,
while the rows themselves are carried through unchanged; the ids are in
general not contiguous (two singleton partitions already produce the gapped
ids `[0, 2^33]`). -/
theorem C8_songplay_ids_unique (parts : List (List SongplayRow))
    (h : ∀ part ∈ parts, part.length ≤ 2 ^ 33) :
    ((assignSongplayIds parts).map Prod.snd).Nodup ∧
    (assignSongplayIds parts).map Prod.fst = parts.flatten := by
  constructor
  · exact List.Pairwise.imp Nat.ne_of_lt (pairwise_lt_assignIdsFrom 0 parts h)
  · exact map_fst_assignIdsFrom 0 parts

/-- Witness for C8 at a concrete two-partition input; the produced ids are the
non-contiguous `[0, 2^33]`. -/
theorem C8_witness :
    (∀ part ∈ [[sampleSongplay], [sampleSongplay]], part.length ≤ 2 ^ 33) ∧
    ((assignSongplayIds [[sampleSongplay], [sampleSongplay]]).map Prod.snd).Nodup ∧
    (assignSongplayIds [[sampleSongplay], [sampleSongplay]]).map Prod.fst =
      [[sampleSongplay], [sampleSongplay]].flatten :=
  ⟨by decide, C8_songplay_ids_unique [[sampleSongplay], [sampleSongplay]] (by decide)⟩

/-- The ids produced for two singleton partitions exhibit a gap: contiguity is
not guaranteed. -/
theorem songplay_ids_not_contiguous :
    (assignSongplayIds [[sampleSongplay], [sampleSongplay]]).map Prod.snd =
      [0, 2 ^ 33] := by decide

theorem count_pair_map (x : LogWithTime) (q0 : SongRecord)
    (lst : List SongRecord) :
    (lst.map fun q => (x, q)).count (x, q0) = lst.count q0 := by
  induction lst with
  | nil => simp
  | cons a t ih =>
    simp [List.count_cons, ih, Prod.ext_iff]

/-- Multiplicity of each (log row, song) pair in the inner join: the product
of the two input multiplicities when the titles match, zero otherwise. -/
theorem count_joinOnTitle (df : List LogWithTime) (songs : List SongRecord)
    (l : LogWithTime) (s : SongRecord) :
    (joinOnTitle df songs).count (l, s) =
      if s.title = l.song then df.count l * songs.count s else 0 := by
  induction df with
  | nil => simp [joinOnTitle]
  | cons x xs ih =>
    have hstep : joinOnTitle (x :: xs) songs =
        ((songs.filter fun q => q.title == x.song).map fun q => (x, q)) ++
          joinOnTitle xs songs := by
      simp [joinOnTitle]
    rw [hstep, List.count_append, ih]
    by_cases hx : x = l
    · subst hx
      by_cases hm : s.title = x.song
      · rw [count_pair_map, List.count_filter (by simpa using hm), if_pos hm,
          if_pos hm, List.count_cons_self]
        ring
      · have hnot : (x, s) ∉ (songs.filter fun q => q.title == x.song).map
            fun q => (x, q) := by
          intro hmem
          rcases List.mem_map.1 hmem with ⟨q, hq, heq⟩
          injection heq with h1 h2
          subst h2
          exact hm (by simpa using (List.mem_filter.1 hq).2)
        rw [List.count_eq_zero_of_not_mem hnot, if_neg hm, if_neg hm]
    · have hnot : (l, s) ∉ (songs.filter fun q => q.title == x.song).map
          fun q => (x, q) := by
        intro hmem
        rcases List.mem_map.1 hmem with ⟨q, _, heq⟩
        injection heq with h1 h2
        exact hx h1
      rw [List.count_eq_zero_of_not_mem hnot, List.count_cons, Nat.zero_add]
      simp [hx]

/-- C4: the Songplays table is the inner equality join on
`song_df.title == df.song`: each (filtered log row, song record) pair appears
with multiplicity `count l · count s` exactly when the titles match and never
otherwise, the table has one row per join pair, and every table row is the
projection of a matching pair (unmatched log rows are dropped, not an
error). -/
theorem C4_songplays_is_inner_title_join (offset : Int) (logs : List LogRecord)
    (songs : List SongRecord) :
    (∀ (l : LogWithTime) (s : SongRecord),
      (joinOnTitle ((filterNextSong logs).map (withTimeColumns offset))
        songs).count (l, s) =
        if s.title = l.song
        then ((filterNextSong logs).map (withTimeColumns offset)).count l *
          songs.count s
        else 0) ∧
    (songplays_table offset logs songs).length =
      (joinOnTitle ((filterNextSong logs).map (withTimeColumns offset))
        songs).length ∧
    ∀ row ∈ songplays_table offset logs songs,
      ∃ p ∈ joinOnTitle ((filterNextSong logs).map (withTimeColumns offset)) songs,
        p.2.title = p.1.song ∧ row = songplayProj p := by
  refine ⟨fun l s => count_joinOnTitle _ _ l s, ?_, ?_⟩
  · simp [songplays_table]
  · intro row hrow
    rcases List.mem_map.1 hrow with ⟨⟨l, s⟩, hp, rfl⟩
    exact ⟨(l, s), hp, (mem_joinOnTitle.1 hp).2.2, rfl⟩

/-- Witness for C4 at a concrete input: one matching log row and song. -/
theorem C4_witness :
    sampleSongplay ∈ songplays_table 0 [sampleLog] [sampleSong] ∧
    ∃ p ∈ joinOnTitle ((filterNextSong [sampleLog]).map (withTimeColumns 0))
        [sampleSong],
      p.2.title = p.1.song ∧ sampleSongplay = songplayProj p :=
  ⟨by decide,
   (C4_songplays_is_inner_title_join 0 [sampleLog] [sampleSong]).2.2
     sampleSongplay (by decide)⟩

/-- C1 counterexample: the Songs table is written with no deduplication
(etl.py lines 70-75), so an input with two records sharing a `song_id` yields
two rows for that id, not one. -/
theorem C1_counterexample :
    ¬ ((songs_table [sampleSong, sampleSongDup]).countP
        (fun r => r.song_id == "SOGOSOV12AF72A285E") = 1) ∧
    (songs_table [sampleSong, sampleSongDup]).countP
      (fun r => r.song_id == "SOGOSOV12AF72A285E") = 2 := by
  constructor
  · decide
  · decide

/-- C1 (amended): the Songs output table is a pure projection of the input —
one row per input record, each carrying that record's (song_id, title,
artist_id, year, duration); consequently it has exactly one row per distinct
`song_id` whenever the input's `song_id`s are distinct. -/
theorem C1_songs_projection (df : List SongRecord) :
    (songs_table df).length = df.length ∧
    (∀ i (h : i < df.length),
      (songs_table df).get ⟨i, by simpa [songs_table] using h⟩ =
        songsProj (df.get ⟨i, h⟩)) ∧
    ((df.map (fun r => r.song_id)).Nodup →
      ∀ sid : String,
        (songs_table df).countP (fun r => r.song_id == sid) =
          if sid ∈ df.map (fun r => r.song_id) then 1 else 0) := by
  refine ⟨by simp [songs_table], fun i h => ?_, fun hnd sid => ?_⟩
  · simp [songs_table]
  · have hP : (songs_table df).countP (fun r => r.song_id == sid) =
        (df.map (fun r => r.song_id)).count sid := by
      simp [songs_table, List.count, List.countP_map, Function.comp_def, songsProj]
    rw [hP]
    by_cases hmem : sid ∈ df.map (fun r => r.song_id)
    · rw [if_pos hmem]
      exact List.count_eq_one_of_mem hnd hmem
    · rw [if_neg hmem]
      exact List.count_eq_zero_of_not_mem hmem

/-- Witness for C1 (amended) at a concrete two-record distinct-id input. -/
theorem C1_witness :
    (songs_table [sampleSong]).length = 1 ∧
    (songs_table [sampleSong]).get ⟨0, by decide⟩ = songsProj sampleSong ∧
    ((([sampleSong].map (fun r => r.song_id)).Nodup) ∧
      (songs_table [sampleSong]).countP
        (fun r => r.song_id == "SOGOSOV12AF72A285E") =
        if "SOGOSOV12AF72A285E" ∈ [sampleSong].map (fun r => r.song_id)
        then 1 else 0) :=
  ⟨(C1_songs_projection [sampleSong]).1,
   (C1_songs_projection [sampleSong]).2.1 0 (by decide),
   by decide,
   (C1_songs_projection [sampleSong]).2.2 (by decide) "SOGOSOV12AF72A285E"⟩

/-- C2 counterexample: `datetime.fromtimestamp` uses the process's local
timezone; in a UTC environment (offset 0) the instant 1541121934796 ms is
2018-11-02 01:25:34, so the derived day is 2, not 1. -/
theorem C2_counterexample :
    ¬ (dayOfMs (localTsMs 1541121934796 0) = 1) ∧
    yearOfMs (localTsMs 1541121934796 0) = 2018 ∧
    monthOfMs (localTsMs 1541121934796 0) = 11 ∧
    dayOfMs (localTsMs 1541121934796 0) = 2 := by
  refine ⟨by decide, by decide, by decide, by decide⟩

/-- C2 (amended): the per-row timestamp is derived from the millisecond `ts`
by dividing by 1000 and interpreting the result as a point in time in the
process's local timezone; for ts = 1541121934796 the derived fields satisfy
year = 2018, month = 11, day = 1 exactly when the local UTC offset lies in
[-91534 s, -5135 s] — which covers all US timezones — while a UTC process
(offset 0) derives day = 2. -/
theorem C2_known_ts_decomposition (offset : Int)
    (h1 : -91534 ≤ offset) (h2 : offset ≤ -5135) :
    yearOfMs (localTsMs 1541121934796 offset) = 2018 ∧
    monthOfMs (localTsMs 1541121934796 offset) = 11 ∧
    dayOfMs (localTsMs 1541121934796 offset) = 1 := by
  have hr0 : (0 : Int) ≤ 91534796 + offset * 1000 := by linarith
  have hr1 : 91534796 + offset * 1000 < 86400000 := by linarith
  have hms : localTsMs 1541121934796 offset =
      (91534796 + offset * 1000) + 17836 * 86400000 := by
    unfold localTsMs; ring
  have hdays : epochDaysOfMs (localTsMs 1541121934796 offset) = 17836 := by
    rw [epochDaysOfMs, hms,
      Int.add_mul_ediv_right _ _ (by norm_num : (86400000 : Int) ≠ 0),
      Int.ediv_eq_zero_of_lt hr0 hr1]
    ring
  refine ⟨?_, ?_, ?_⟩
  · rw [yearOfMs, hdays]; decide
  · rw [monthOfMs, hdays]; decide
  · rw [dayOfMs, hdays]; decide

/-- Witness for C2 (amended) at offset -14400 s (US Eastern daylight time). -/
theorem C2_witness :
    (-91534 : Int) ≤ -14400 ∧ (-14400 : Int) ≤ -5135 ∧
    (yearOfMs (localTsMs 1541121934796 (-14400)) = 2018 ∧
      monthOfMs (localTsMs 1541121934796 (-14400)) = 11 ∧
      dayOfMs (localTsMs 1541121934796 (-14400)) = 1) :=
  ⟨by decide, by decide, C2_known_ts_decomposition (-14400) (by decide) (by decide)⟩

/-- Sanity anchors for the calendar embedding: the epoch itself, the spec's
known date 2018-11-01 (epoch day 17836, a Thursday, hence Spark
`dayofweek = 5`, ISO week 44), and the inverse conversion. -/
theorem calendar_embedding_anchors :
    civilFromDays 0 = (1970, 1, 1) ∧
    civilFromDays 17836 = (2018, 11, 1) ∧
    daysFromCivil 2018 11 1 = 17836 ∧
    daysFromCivil 1970 1 1 = 0 ∧
    dayofweekOfMs (17836 * 86400000) = 5 ∧
    weekofyearOfMs (17836 * 86400000) = 44 := by
  refine ⟨by decide, by decide, by decide, by decide, by decide, by decide⟩

end Etl
